import Mathlib

/-!
Verification of the MokAInight movie-browser core
(src/Assignment3_AI_in_Movie_Industry/assignment3_analysis.py).

The development shallowly embeds the data loading, filtering, searching,
sorting, sampling and truncation logic of the Python source as executable
Lean definitions and proves or refutes the frozen claims about them.

Modelling conventions:
* A pandas DataFrame of movie rows becomes a `List MovieRecord` (ordered,
  immutable; pandas row index plays no role in this code beyond order).
* CSV parsing and the pandas value coercions `pd.to_numeric(..., errors)` /
  `pd.to_datetime(..., errors)` are abstracted by letting each raw input
  field carry its parse outcome: `none` models NaN / NaT produced by a
  failed coercion or a missing value, `some x` a successful parse.
  Dates are encoded as integer day numbers with day 0 = 1900-01-01.
* pandas `Series.str.contains(pat)` uses its default `regex=True`, i.e. the
  query is compiled by Python `re` and matched with `re.search`.  The
  engine below (`reCompile`, `reSearchB`) models the fragment of Python
  regular expressions relevant to this program: literal characters, the
  dot, the quantifiers `*` `+` `?` (with optional lazy marker), alternation,
  and groups; malformed patterns (unterminated group, dangling quantifier,
  stray closing parenthesis, trailing backslash) are compile errors exactly
  as in `re.compile`.  Constructs outside the fragment (character classes,
  anchors, extension groups, alphanumeric escapes) are mapped to compile
  errors and never appear in the concrete inputs used below.
* `df.sample(n)` draws rows at distinct positions in random order; the
  randomness is made explicit by passing the permutation of row positions
  chosen by the RNG as an argument.
* `df.sort_values(by, ascending=False)` goes through pandas `nargsort`,
  which for a descending sort first reverses the non-missing keys and
  their positions, takes an ascending argsort of the reversed keys
  (stable for the small frames used here, since numpy introsort falls
  back to insertion sort), and reverses the resulting order again; the
  double reversal makes the descending sort keep tied rows in their
  original relative order.  Missing keys are appended last in original
  order (`na_position="last"`).  `sort_top_rated` / `sort_most_recent`
  below translate exactly that: reverse the input, stable ascending
  sort, reverse the output, missing dates appended last.
-/

/-! ### String helpers: Python `in` and `str.lower` -/

/-- Python substring test helper: `headMatchB n h` is true when the
character list `n` occurs at the very start of `h`. -/
def headMatchB : List Char → List Char → Bool
  | [], _ => true
  | _ :: _, [] => false
  | a :: u, b :: w => a == b && headMatchB u w

/-- Python `n in h` on strings, as character lists: `n` occurs contiguously
somewhere in `h`. -/
def subChars (n : List Char) : List Char → Bool
  | [] => headMatchB n []
  | b :: w => headMatchB n (b :: w) || subChars n w

/-- Python string containment `needle in hay` (case sensitive, plain
substring). -/
def strInB (needle hay : String) : Bool := subChars needle.data hay.data

/-- Python `str.lower()` (ASCII-faithful; the concrete inputs used in this
development are ASCII). -/
def lowerS (s : String) : String := ⟨s.data.map Char.toLower⟩

/-! ### Regular expressions, as used by `Series.str.contains` -/

/-- Abstract syntax of the modelled fragment of Python regular
expressions. `void` denotes the empty language; it is produced by the
derivative operation, never by the parser. -/
inductive RE where
  | void : RE
  | eps : RE
  | ch : Char → RE
  | dot : RE
  | seqR : RE → RE → RE
  | altR : RE → RE → RE
  | star : RE → RE
deriving DecidableEq

/-- Nullability: does the regex accept the empty string. -/
def nullB : RE → Bool
  | .void => false
  | .eps => true
  | .ch _ => false
  | .dot => false
  | .seqR a b => nullB a && nullB b
  | .altR a b => nullB a || nullB b
  | .star _ => true

/-- Brzozowski derivative of a regex by one character.  Python `.` matches
any character except a newline (re.DOTALL is off in the source). -/
def derivB : RE → Char → RE
  | .void, _ => .void
  | .eps, _ => .void
  | .ch c, x => if x == c then .eps else .void
  | .dot, x => if x == '\n' then .void else .eps
  | .seqR a b, x =>
      .altR (.seqR (derivB a x) b) (if nullB a then derivB b x else .void)
  | .altR a b, x => .altR (derivB a x) (derivB b x)
  | .star a, x => .seqR (derivB a x) (.star a)

/-- Does some (possibly empty) leading segment of the input match `r`. -/
def matchHereB (r : RE) : List Char → Bool
  | [] => nullB r
  | c :: cs => nullB r || matchHereB (derivB r c) cs

/-- Python `re.search(r, s) is not None`: some contiguous segment of `s`,
starting at any position, matches `r`. -/
def reSearchB (r : RE) : List Char → Bool
  | [] => matchHereB r []
  | c :: t => matchHereB r (c :: t) || reSearchB r t

/-- Quantifier characters of the modelled regex fragment. -/
def isQuant (c : Char) : Bool := c == '*' || c == '+' || c == '?'

/-- Desugar a quantifier application. -/
def applyQuant (c : Char) (a : RE) : RE :=
  if c == '*' then RE.star a
  else if c == '+' then RE.seqR a (RE.star a)
  else RE.altR a RE.eps

mutual

/-- Parse an alternation (`|`-separated branches).  The fuel argument
bounds recursion depth; `reCompile` supplies enough for any input. -/
def parseAlt : Nat → List Char → Except String (RE × List Char)
  | 0, _ => .error "pattern too complex"
  | fuel + 1, s =>
    match parseSeq fuel s with
    | .error e => .error e
    | .ok (r, rest) =>
      match rest with
      | '|' :: rest2 =>
        match parseAlt fuel rest2 with
        | .error e => .error e
        | .ok (r2, rest3) => .ok (.altR r r2, rest3)
      | _ => .ok (r, rest)

/-- Parse a concatenation of quantified atoms, stopping at `|`, `)` or the
end of the pattern.  A quantifier may carry one lazy marker `?`; a second
quantifier directly after a quantified atom is the `re.compile` error
`multiple repeat`. -/
def parseSeq : Nat → List Char → Except String (RE × List Char)
  | 0, _ => .error "pattern too complex"
  | fuel + 1, s =>
    match s with
    | [] => .ok (.eps, [])
    | ')' :: rest => .ok (.eps, ')' :: rest)
    | '|' :: rest => .ok (.eps, '|' :: rest)
    | c :: cs =>
      match parseAtom fuel (c :: cs) with
      | .error e => .error e
      | .ok (a, rest) =>
        match
          (match rest with
           | q :: rest2 =>
             if isQuant q then
               match (match rest2 with | '?' :: r4 => r4 | _ => rest2) with
               | q2 :: more =>
                 if isQuant q2 then .error "multiple repeat"
                 else .ok (applyQuant q a, q2 :: more)
               | [] => .ok (applyQuant q a, [])
             else .ok (a, q :: rest2)
           | [] => .ok (a, []) : Except String (RE × List Char))
        with
        | .error e => .error e
        | .ok (a2, rest4) =>
          match parseSeq fuel rest4 with
          | .error e => .error e
          | .ok (t, rest5) => .ok (.seqR a2 t, rest5)

/-- Parse one atom: a group, a dot, an escaped character or a literal
character.  A dangling quantifier, an unterminated group, a trailing
backslash and the constructs outside the modelled fragment are compile
errors. -/
def parseAtom : Nat → List Char → Except String (RE × List Char)
  | 0, _ => .error "pattern too complex"
  | _ + 1, [] => .error "empty atom"
  | fuel + 1, c :: cs =>
    if c == '(' then
      match cs with
      | '?' :: _ => .error "group extension unsupported in model"
      | _ =>
        match parseAlt fuel cs with
        | .error e => .error e
        | .ok (r, rest2) =>
          match rest2 with
          | ')' :: rest3 => .ok (r, rest3)
          | _ => .error "missing ), unterminated subpattern"
    else if c == '.' then .ok (.dot, cs)
    else if c == '\\' then
      match cs with
      | [] => .error "bad escape (end of pattern)"
      | e :: rest2 =>
        if e.isAlphanum then .error "escape class unsupported in model"
        else .ok (.ch e, rest2)
    else if isQuant c then .error "nothing to repeat"
    else if c == '[' then .error "character class unsupported in model"
    else if c == '^' || c == '$' then .error "anchor unsupported in model"
    else .ok (.ch c, cs)

end

/-- Python `re.compile` on the modelled fragment: parse the whole pattern;
leftover input can only start with a stray closing parenthesis. -/
def reCompile (s : List Char) : Except String RE :=
  match parseAlt (3 * s.length + 3) s with
  | .error e => .error e
  | .ok (r, []) => .ok r
  | .ok (_, _ :: _) => .error "unbalanced parenthesis"

/-! ### Data model and loader (`load_data`, source lines 11-37) -/

/-- One row of `movies_complete.csv` as seen after the pandas coercions:
each optional field carries its parse outcome (`none` models NaN / NaT
from a missing value or a failed coercion). -/
structure RawMovieRow where
  title : String
  overview : Option String
  genres : Option String
  cast : Option String
  directors : Option String
  rating : Option Rat
  release_date : Option Int
  poster_url : String
deriving DecidableEq

/-- One row of the side table `movies.csv` restricted to the columns the
join uses; `age_rating` may be missing (NaN). -/
structure RatingRow where
  title : String
  age_rating : Option String
deriving DecidableEq

/-- A fully loaded movie record, the element type of every view. -/
structure MovieRecord where
  title : String
  overview : String
  genres : String
  cast : String
  directors : String
  rating : Rat
  release_date : Option Int
  poster_url : String
  age_rating : Option String
deriving DecidableEq

/-- Day number of the date 1900-01-01 in the chosen encoding. -/
def sentinel1900 : Int := 0

/-- Column normalisation of `load_data` (source lines 21-26) applied to one
row: `fillna("")` on the four text columns, `to_numeric(...).fillna(0)` on
`rating`, `to_datetime(..., errors="coerce")` on `release_date`.
`hasRatingCol` / `hasDateCol` model `df_main.get(col, default)`: when the
column is absent the scalar default (`0` resp. the string "1900-01-01")
replaces the whole column.  (With the rating column missing, the real
line 25 would in fact raise, because `.fillna` is called on the scalar
`pd.to_numeric(0)`; the model simplifies that branch to the intended
zero fill, and no theorem below reads `rating` in that branch.) -/
def mkRecord (hasRatingCol hasDateCol : Bool) (r : RawMovieRow)
    (a : Option String) : MovieRecord :=
  ⟨r.title, r.overview.getD "", r.genres.getD "", r.cast.getD "",
   r.directors.getD "",
   if hasRatingCol then r.rating.getD 0 else 0,
   if hasDateCol then r.release_date else some sentinel1900,
   r.poster_url, a⟩

/-- Loader (source lines 11-37).  `side = none` models a missing or
malformed side table (the join is skipped, source lines 32-35); otherwise
`pd.merge(..., on="title", how="left")` keeps every main row in order,
fans out over all side rows with an equal title, and leaves `age_rating`
empty when no side row matches. -/
def load_data (hasRatingCol hasDateCol : Bool) (rows : List RawMovieRow)
    (side : Option (List RatingRow)) : List MovieRecord :=
  match side with
  | none => rows.map (fun r => mkRecord hasRatingCol hasDateCol r none)
  | some tbl =>
    rows.flatMap (fun r =>
      match tbl.filter (fun t => t.title == r.title) with
      | [] => [mkRecord hasRatingCol hasDateCol r none]
      | m :: ms =>
        (m :: ms).map (fun t => mkRecord hasRatingCol hasDateCol r t.age_rating))

/-! ### Filtering and searching (source lines 42-55 and 127-128) -/

/-- Genre filter (source lines 42-45): an empty selection is a no-op,
otherwise keep the rows whose raw genre text contains at least one
selected genre string as a plain substring (Python `genre in x`). -/
def filter_by_genres (v : List MovieRecord) (selected : List String) :
    List MovieRecord :=
  if selected.isEmpty then v
  else v.filter (fun m => selected.any (fun g => strInB g m.genres))

/-- Text search (source lines 47-55): an empty query is a no-op; otherwise
the lowercased query is handed to `Series.str.contains` on the lowercased
`title`, `cast` and `directors` columns.  `str.contains` compiles the
query as a regular expression (its default `regex=True`), so compilation
can fail; a failure propagates as the `re.error` exception, modelled by
`Except.error`. -/
def search_movies (v : List MovieRecord) (query : String) :
    Except String (List MovieRecord) :=
  if query.isEmpty then .ok v
  else
    match reCompile (lowerS query).data with
    | .error e => .error e
    | .ok r =>
      .ok (v.filter (fun m =>
        reSearchB r (lowerS m.title).data ||
        reSearchB r (lowerS m.cast).data ||
        reSearchB r (lowerS m.directors).data))

/-- Age-rating filter as applied in `main` (source lines 127-128): the
sentinel "All" skips the filter, any other value keeps exactly the rows
whose `age_rating` equals it (pandas `==` is false on NaN, i.e. on
`none`). -/
def filter_by_age_rating (v : List MovieRecord) (sel : String) :
    List MovieRecord :=
  if sel == "All" then v
  else v.filter (fun m => m.age_rating == some sel)

/-! ### Sorting, sampling, truncation (source lines 57-64 and 131-139) -/

/-- Order on release-date keys used to state monotonicity of
`sort_most_recent`: a missing date (NaT) is treated as below every real
date, matching the claim that unparsable dates sort as the oldest
possible date. -/
def keyLeB : Option Int → Option Int → Bool
  | none, _ => true
  | some _, none => false
  | some a, some b => decide (a ≤ b)

/-- Sort descending by `rating` (source lines 57-58).  pandas `nargsort`
reverses the keys, takes an ascending argsort of the reversed keys
(modelled by a stable insertion sort, exact for the small frames used
here, where numpy introsort is insertion sort), and reverses the
resulting order again — so the descending sort keeps tied rows in their
original relative order. -/
def sort_top_rated (v : List MovieRecord) : List MovieRecord :=
  (List.insertionSort (fun a b => a.rating ≤ b.rating) v.reverse).reverse

/-- Sort descending by `release_date` (source lines 60-61): rows with a
missing date are set aside; the rest are reversed, ascending-argsorted
(stable) and reversed again, keeping tied dates in original relative
order; the missing-date rows are appended last in original order (pandas
`na_position="last"`). -/
def sort_most_recent (v : List MovieRecord) : List MovieRecord :=
  (List.insertionSort
      (fun a b => keyLeB a.release_date b.release_date = true)
      (v.filter (fun m => m.release_date.isSome)).reverse).reverse ++
    v.filter (fun m => !m.release_date.isSome)

/-- Random sample without replacement (source lines 63-64):
`df.sample(min(len(df), count))` picks `min len count` distinct row
positions in random order.  The randomness is explicit: `perm` is the
permutation of all row positions chosen by the RNG and the sample takes
its first `min len count` entries. -/
def surprise_sample (v : List MovieRecord) (count : Nat) (perm : List Nat) :
    List MovieRecord :=
  (perm.take (min v.length count)).filterMap (fun i => v.get? i)

/-- Filter stage of `main` (source lines 126-129): genre filter, then
age-rating filter, then text search. -/
def pipeline_filtered (df : List MovieRecord) (selectedGenres : List String)
    (selectedAgeRating : String) (searchQuery : String) :
    Except String (List MovieRecord) :=
  search_movies
    (filter_by_age_rating (filter_by_genres df selectedGenres)
      selectedAgeRating)
    searchQuery

/-- Ordering stage of `main` (source lines 131-134): the two sort toggles
applied in order, the later one overwriting the earlier. -/
def pipeline_sorted (v : List MovieRecord) (topRated mostRecent : Bool) :
    List MovieRecord :=
  let f4 := if topRated then sort_top_rated v else v
  if mostRecent then sort_most_recent f4 else f4

/-- End-to-end pipeline of `main` (source lines 125-139): filters, then
sorts, then either the surprise sample (default count 5, source line 136)
or truncation to the first 10 rows (`head(10)`, line 139, applied exactly
when the surprise toggle is off). -/
def run_pipeline (df : List MovieRecord) (selectedGenres : List String)
    (selectedAgeRating : String) (searchQuery : String)
    (topRated mostRecent surpriseMe : Bool) (perm : List Nat) :
    Except String (List MovieRecord) :=
  match pipeline_filtered df selectedGenres selectedAgeRating searchQuery with
  | .error e => .error e
  | .ok f3 =>
    let f5 := pipeline_sorted f3 topRated mostRecent
    if surpriseMe then .ok (surprise_sample f5 5 perm)
    else .ok (f5.take 10)

/-! ### Concrete inputs used by witnesses and counterexamples -/

/-- A record whose lowercased title is "tot"; used to exhibit the regex
behaviour of the text search. -/
def recTot : MovieRecord :=
  ⟨"tot", "", "Action, Sci-Fi", "", "", 8, some 100, "", some "PG"⟩

/-- First of two records with equal ratings (for the sort-stability
counterexample). -/
def recA : MovieRecord :=
  ⟨"Alpha", "", "Romance, Drama", "", "", 7, some 200, "", none⟩

/-- Second of two records with equal ratings; its release date is missing
(NaT). -/
def recB : MovieRecord :=
  ⟨"Beta", "", "Drama", "", "", 7, none, "", some "PG"⟩

/-- A raw input row whose `release_date` failed to parse (NaT) and whose
optional text fields are all missing. -/
def rawBad : RawMovieRow := ⟨"Bad", none, none, none, none, none, none, ""⟩

/-- A raw input row with every field parsed. -/
def rawAlpha : RawMovieRow :=
  ⟨"Alpha", some "o", some "Romance", some "c", some "d", some 7, some 200, "p"⟩

/-- A side table with no row matching the title "Alpha". -/
def sideT : List RatingRow := [⟨"Other", some "R"⟩]

/-- The compiled form of the query "t.t" in the modelled regex fragment. -/
def reTT : RE := RE.seqR (RE.ch 't') (RE.seqR RE.dot (RE.seqR (RE.ch 't') RE.eps))

/-! ### Order instances for the sort relations -/

instance : IsTotal MovieRecord (fun a b => a.rating ≤ b.rating) :=
  ⟨fun a b => le_total a.rating b.rating⟩

instance : IsTrans MovieRecord (fun a b => a.rating ≤ b.rating) :=
  ⟨fun _ _ _ h1 h2 => le_trans h1 h2⟩

instance : IsTotal MovieRecord
    (fun a b => keyLeB a.release_date b.release_date = true) :=
  ⟨fun a b => by
    cases ha : a.release_date <;> cases hb : b.release_date <;>
      simp [keyLeB] <;> omega⟩

instance : IsTrans MovieRecord
    (fun a b => keyLeB a.release_date b.release_date = true) :=
  ⟨fun a b c h1 h2 => by
    cases ha : a.release_date <;> cases hb : b.release_date <;>
        cases hc : c.release_date <;>
      rw [ha, hb] at h1 <;> rw [hb, hc] at h2 <;> simp_all [keyLeB] <;> omega⟩

/-! ### Helper lemmas -/

/-- Reading every position of a list in order reproduces the list. -/
theorem range_filterMap_get {α : Type} (v : List α) :
    (List.range v.length).filterMap (fun i => v.get? i) = v := by
  induction v with
  | nil => rfl
  | cons a t ih =>
    rw [List.length_cons, List.range_succ_eq_map, List.filterMap_cons]
    simp only [List.get?_cons_zero, List.filterMap_map, Function.comp_def,
      List.get?_cons_succ]
    rw [ih]

/-- A `filterMap` whose function succeeds on every member keeps the
length. -/
theorem filterMap_length_of_isSome {α β : Type} (f : α → Option β) :
    ∀ l : List α, (∀ a ∈ l, (f a).isSome = true) →
      (l.filterMap f).length = l.length := by
  intro l
  induction l with
  | nil => simp
  | cons a t ih =>
    intro h
    rcases Option.isSome_iff_exists.mp (h a (List.mem_cons_self a t)) with ⟨b, hb⟩
    rw [List.filterMap_cons, hb, List.length_cons,
      ih fun x hx => h x (List.mem_cons_of_mem _ hx)]
    rfl

/-- Reading a sub-permutation of the positions of `v` yields a
sub-permutation of `v`. -/
theorem filterMap_get_subperm {α : Type} (v : List α) (idxs : List Nat)
    (h : idxs.Subperm (List.range v.length)) :
    (idxs.filterMap (fun i => v.get? i)).Subperm v := by
  rcases h with ⟨s, hsp, hss⟩
  refine ⟨s.filterMap (fun i => v.get? i), List.Perm.filterMap _ hsp, ?_⟩
  have hs2 := List.Sublist.filterMap (fun i => v.get? i) hss
  rwa [range_filterMap_get] at hs2

/-- Length of a surprise sample, given that the random draw is a
permutation of all row positions. -/
theorem surprise_sample_length (v : List MovieRecord) (n : Nat)
    (perm : List Nat) (hp : perm.Perm (List.range v.length)) :
    (surprise_sample v n perm).length = min v.length n := by
  have hlen : perm.length = v.length := by simpa using hp.length_eq
  have hmem : ∀ i ∈ perm.take (min v.length n), (v.get? i).isSome = true := by
    intro i hi
    have hip : i ∈ perm := List.mem_of_mem_take hi
    have hir : i ∈ List.range v.length := hp.mem_iff.mp hip
    have hlt : i < v.length := List.mem_range.mp hir
    rw [List.get?_eq_get hlt]
    rfl
  unfold surprise_sample
  rw [filterMap_length_of_isSome _ _ hmem, List.length_take, hlen]
  omega

/-- A surprise sample is a permutation of a subsequence of the view: the
rows are drawn from the view without replacement. -/
theorem surprise_sample_subperm (v : List MovieRecord) (n : Nat)
    (perm : List Nat) (hp : perm.Perm (List.range v.length)) :
    (surprise_sample v n perm).Subperm v := by
  have hsub : (perm.take (min v.length n)).Subperm (List.range v.length) :=
    ((List.take_sublist _ _).subperm).trans hp.subperm
  exact filterMap_get_subperm v _ hsub

/-- Every loaded record is the normalisation of some input row. -/
theorem mem_load_data (hR hD : Bool) (rows : List RawMovieRow)
    (side : Option (List RatingRow)) (m : MovieRecord)
    (hm : m ∈ load_data hR hD rows side) :
    ∃ r ∈ rows, ∃ a, m = mkRecord hR hD r a := by
  cases side with
  | none =>
    rcases List.mem_map.mp hm with ⟨r, hr, rfl⟩
    exact ⟨r, hr, none, rfl⟩
  | some tbl =>
    rcases List.mem_flatMap.mp hm with ⟨r, hr, hmr⟩
    cases htbl : tbl.filter (fun t => t.title == r.title) with
    | nil =>
      rw [htbl] at hmr
      simp only [List.mem_singleton] at hmr
      exact ⟨r, hr, none, hmr⟩
    | cons t ts =>
      rw [htbl] at hmr
      rcases List.mem_map.mp hmr with ⟨t2, _, rfl⟩
      exact ⟨r, hr, t2.age_rating, rfl⟩

/-- Inserting an element that precedes every member of a class (under the
sort relation) puts it at the front of that class: the filtered view of an
`orderedInsert` gains the new element first when it belongs to the class. -/
theorem filter_orderedInsert_pos {α : Type} (r : α → α → Prop)
    [DecidableRel r] (p : α → Bool) (a : α) (s : List α)
    (h : ∀ b, p b = true → r a b) (ha : p a = true) :
    (List.orderedInsert r a s).filter p = a :: s.filter p := by
  induction s with
  | nil => simp [List.orderedInsert, ha]
  | cons b t ih =>
    by_cases hr : r a b
    · rw [List.orderedInsert, if_pos hr, List.filter_cons_of_pos ha]
    · have hpb : p b = false := by
        cases hpb : p b with
        | false => rfl
        | true => exact absurd (h b hpb) hr
      rw [List.orderedInsert, if_neg hr,
        List.filter_cons_of_neg (by simp [hpb]), ih,
        List.filter_cons_of_neg (by simp [hpb])]

/-- Inserting an element outside a class leaves the filtered view of that
class unchanged. -/
theorem filter_orderedInsert_neg {α : Type} (r : α → α → Prop)
    [DecidableRel r] (p : α → Bool) (a : α) (s : List α)
    (ha : p a = false) :
    (List.orderedInsert r a s).filter p = s.filter p := by
  induction s with
  | nil => simp [List.orderedInsert, ha]
  | cons b t ih =>
    by_cases hr : r a b
    · rw [List.orderedInsert, if_pos hr, List.filter_cons_of_neg (by simp [ha])]
    · rw [List.orderedInsert, if_neg hr]
      cases hpb : p b with
      | true =>
        rw [List.filter_cons_of_pos hpb, List.filter_cons_of_pos hpb, ih]
      | false =>
        rw [List.filter_cons_of_neg (by simp [hpb]),
          List.filter_cons_of_neg (by simp [hpb]), ih]

/-- Stability of the insertion sort: a class of mutually related elements
keeps its original relative order, i.e. its filtered view is unchanged by
the sort. -/
theorem filter_insertionSort_eq {α : Type} (r : α → α → Prop)
    [DecidableRel r] (p : α → Bool)
    (hp : ∀ a b, p a = true → p b = true → r a b) :
    ∀ l : List α, (List.insertionSort r l).filter p = l.filter p := by
  intro l
  induction l with
  | nil => rfl
  | cons a t ih =>
    rw [List.insertionSort]
    cases hpa : p a with
    | true =>
      rw [filter_orderedInsert_pos r p a _ (fun b hb => hp a b hpa hb) hpa,
        ih, List.filter_cons_of_pos hpa]
    | false =>
      rw [filter_orderedInsert_neg r p a _ hpa, ih,
        List.filter_cons_of_neg (by simp [hpa])]

/-- Filtering by a class inside a coarser filter equals filtering by the
class alone. -/
theorem filter_filter_of_imp {α : Type} (p q : α → Bool)
    (h : ∀ a, p a = true → q a = true) (l : List α) :
    (l.filter q).filter p = l.filter p := by
  induction l with
  | nil => rfl
  | cons a t ih =>
    cases hqa : q a with
    | true =>
      rw [List.filter_cons_of_pos hqa]
      cases hpa : p a with
      | true =>
        rw [List.filter_cons_of_pos hpa, List.filter_cons_of_pos hpa, ih]
      | false =>
        rw [List.filter_cons_of_neg (by simp [hpa]),
          List.filter_cons_of_neg (by simp [hpa]), ih]
    | false =>
      have hpa : p a = false := by
        cases hpa : p a with
        | false => rfl
        | true => exact absurd (h a hpa) (by simp [hqa])
      rw [List.filter_cons_of_neg (by simp [hqa]), ih,
        List.filter_cons_of_neg (by simp [hpa])]

/-- Filtering by a class disjoint from the outer filter yields nothing. -/
theorem filter_filter_of_disjoint {α : Type} (p q : α → Bool)
    (h : ∀ a, p a = true → q a = false) (l : List α) :
    (l.filter q).filter p = [] := by
  induction l with
  | nil => rfl
  | cons a t ih =>
    cases hqa : q a with
    | true =>
      have hpa : p a = false := by
        cases hpa : p a with
        | false => rfl
        | true => exact absurd (h a hpa) (by simp [hqa])
      rw [List.filter_cons_of_pos hqa,
        List.filter_cons_of_neg (by simp [hpa]), ih]
    | false => rw [List.filter_cons_of_neg (by simp [hqa]), ih]

/-! ### Claim theorems -/

/-- C5: an empty genre selection, an empty search query and the age rating
"All" are exact no-ops: each returns the input view unchanged (the search
wrapped in `Except.ok`, since the text search can in general fail). -/
theorem noop_laws (v : List MovieRecord) :
    filter_by_genres v [] = v ∧ search_movies v "" = Except.ok v ∧
      filter_by_age_rating v "All" = v :=
  ⟨rfl, rfl, rfl⟩

/-- C8: with a non-empty selection, every record kept by the genre filter
has at least one selected genre occurring as a literal, case-sensitive
substring of its raw comma-joined `genres` text. -/
theorem genre_filter_substring_sound (v : List MovieRecord)
    (gs : List String) (m : MovieRecord) (hgs : gs ≠ [])
    (hm : m ∈ filter_by_genres v gs) :
    ∃ g ∈ gs, strInB g m.genres = true := by
  unfold filter_by_genres at hm
  rw [if_neg (by simpa using hgs)] at hm
  exact List.any_eq_true.mp (List.mem_filter.mp hm).2

/-- Witness for C8 at a concrete view and genre selection. -/
theorem genre_filter_substring_sound_witness :
    ∃ g ∈ ["Action"], strInB g recTot.genres = true :=
  genre_filter_substring_sound [recTot] ["Action"] recTot (by decide) (by decide)

/-- C10: the genre filter, the age-rating filter and the text search each
return a subsequence of the input view (the retained records keep their
relative order); the input itself is never mutated, which the pure
embedding reflects by construction. -/
theorem filters_preserve_order (v : List MovieRecord) (gs : List String)
    (sel : String) (q : String) (l : List MovieRecord)
    (h : search_movies v q = Except.ok l) :
    (filter_by_genres v gs).Sublist v ∧
      (filter_by_age_rating v sel).Sublist v ∧ l.Sublist v := by
  refine ⟨?_, ?_, ?_⟩
  · unfold filter_by_genres
    split
    · exact List.Sublist.refl v
    · exact List.filter_sublist v
  · unfold filter_by_age_rating
    split
    · exact List.Sublist.refl v
    · exact List.filter_sublist v
  · unfold search_movies at h
    split at h
    · rw [← Except.ok.inj h]
    · split at h
      · exact absurd h (by simp)
      · rw [← Except.ok.inj h]
        exact List.filter_sublist v

/-- Witness for C10 at a concrete view, selection and query. -/
theorem filters_preserve_order_witness :
    (filter_by_genres [recTot] ["Action"]).Sublist [recTot] ∧
      (filter_by_age_rating [recTot] "PG").Sublist [recTot] ∧
      List.Sublist [recTot] [recTot] :=
  filters_preserve_order [recTot] ["Action"] "PG" "t.t" [recTot] rfl

/-- C2 counterexample: a row whose `release_date` fails to parse is loaded
with an absent date (NaT from `errors="coerce"`), not with the sentinel
1900-01-01, refuting the claim that every record downstream of the loader
has a present date. -/
theorem release_date_unparsable_is_absent_cex :
    ¬ (∀ m ∈ load_data true true [rawBad] none, ∃ d, m.release_date = some d) := by
  intro h
  rcases h (mkRecord true true rawBad none) (by decide) with ⟨d, hd⟩
  simp [mkRecord, rawBad] at hd

/-- C2 (amended): when the `release_date` column is present, the loader
keeps each parse outcome as is, so an unparsable value stays absent (NaT)
rather than becoming the sentinel; the sentinel 1900-01-01 is used only
when the whole `release_date` column is missing from the input, in which
case every record receives it. -/
theorem release_date_loading_amended (hR : Bool) (rows : List RawMovieRow)
    (side : Option (List RatingRow)) :
    (∀ m ∈ load_data hR false rows side, m.release_date = some sentinel1900) ∧
      (∀ m ∈ load_data hR true rows side,
        ∃ r ∈ rows, m.release_date = r.release_date) := by
  constructor
  · intro m hm
    rcases mem_load_data hR false rows side m hm with ⟨r, _, a, rfl⟩
    rfl
  · intro m hm
    rcases mem_load_data hR true rows side m hm with ⟨r, hr, a, rfl⟩
    exact ⟨r, hr, rfl⟩

/-- Witness for the amended C2 at a concrete unparsable row. -/
theorem release_date_loading_amended_witness :
    ∃ r ∈ [rawBad], (mkRecord true true rawBad none).release_date = r.release_date :=
  (release_date_loading_amended true [rawBad] none).2
    (mkRecord true true rawBad none) (by decide)

/-- C9: the age-rating join is a left join on exact title equality: every
main row survives into the loaded dataset (normalised by `mkRecord`, which
keeps all its fields), and a row whose title matches no side row appears
with an absent `age_rating`. -/
theorem left_join_preserves_records (hR hD : Bool) (rows : List RawMovieRow)
    (tbl : List RatingRow) (r : RawMovieRow) (hr : r ∈ rows) :
    (∃ a, mkRecord hR hD r a ∈ load_data hR hD rows (some tbl)) ∧
      ((∀ t ∈ tbl, t.title ≠ r.title) →
        mkRecord hR hD r none ∈ load_data hR hD rows (some tbl)) := by
  constructor
  · cases htbl : tbl.filter (fun t => t.title == r.title) with
    | nil =>
      refine ⟨none, List.mem_flatMap.mpr ⟨r, hr, ?_⟩⟩
      rw [htbl]
      simp
    | cons t ts =>
      refine ⟨t.age_rating, List.mem_flatMap.mpr ⟨r, hr, ?_⟩⟩
      rw [htbl]
      exact List.mem_map.mpr ⟨t, List.mem_cons_self t ts, rfl⟩
  · intro hnone
    cases htbl : tbl.filter (fun t => t.title == r.title) with
    | nil =>
      refine List.mem_flatMap.mpr ⟨r, hr, ?_⟩
      rw [htbl]
      simp
    | cons t ts =>
      exfalso
      have hmem : t ∈ tbl.filter (fun t => t.title == r.title) := by
        rw [htbl]; exact List.mem_cons_self t ts
      rcases List.mem_filter.mp hmem with ⟨ht, heq⟩
      exact hnone t ht (by simpa using heq)

/-- Witness for C9: a main row with no matching side-table title is kept
with an empty age rating. -/
theorem left_join_preserves_records_witness :
    (∃ a, mkRecord true true rawAlpha a ∈
        load_data true true [rawAlpha] (some sideT)) ∧
      ((∀ t ∈ sideT, t.title ≠ rawAlpha.title) →
        mkRecord true true rawAlpha none ∈
          load_data true true [rawAlpha] (some sideT)) :=
  left_join_preserves_records true true [rawAlpha] sideT rawAlpha (by decide)

/-- C3: both sorts output a permutation of the input that is
non-increasing in the sort key; records with equal keys keep their
original relative order, stated as: for every key value, the subsequence
of records carrying that key is unchanged by the sort (pandas `nargsort`
reverses the keys before the stable ascending argsort and re-reverses the
indexer, so descending sorts are tie-stable); records with a missing
(unparsable) date sort as if they carried the oldest possible date,
landing last in original order. -/
theorem sorts_nonincreasing_stable (v : List MovieRecord) (q : Rat)
    (d : Option Int) :
    (sort_top_rated v).Pairwise (fun a b => b.rating ≤ a.rating) ∧
      (sort_top_rated v).Perm v ∧
      (sort_top_rated v).filter (fun m => m.rating == q) =
        v.filter (fun m => m.rating == q) ∧
      (sort_most_recent v).Pairwise
        (fun a b => keyLeB b.release_date a.release_date = true) ∧
      (sort_most_recent v).Perm v ∧
      (sort_most_recent v).filter (fun m => m.release_date == d) =
        v.filter (fun m => m.release_date == d) := by
  refine ⟨?_, ?_, ?_, ?_, ?_, ?_⟩
  · unfold sort_top_rated
    rw [List.pairwise_reverse]
    exact List.sorted_insertionSort (fun a b => a.rating ≤ b.rating) v.reverse
  · exact ((List.reverse_perm _).trans
      (List.perm_insertionSort (fun a b => a.rating ≤ b.rating) v.reverse)).trans
      (List.reverse_perm v)
  · unfold sort_top_rated
    rw [List.filter_reverse,
      filter_insertionSort_eq _ _
        (fun a b ha hb => by
          rw [beq_iff_eq] at ha hb
          rw [ha, hb]),
      List.filter_reverse, List.reverse_reverse]
  · unfold sort_most_recent
    rw [List.pairwise_append]
    refine ⟨?_, ?_, ?_⟩
    · rw [List.pairwise_reverse]
      exact List.sorted_insertionSort
        (fun a b => keyLeB a.release_date b.release_date = true)
        (v.filter (fun m => m.release_date.isSome)).reverse
    · refine List.pairwise_of_forall_mem_list ?_
      intro a _ b hb
      have hbn := (List.mem_filter.mp hb).2
      cases hob : b.release_date with
      | none => rfl
      | some k => rw [hob] at hbn; simp at hbn
    · intro a _ b hb
      have hbn := (List.mem_filter.mp hb).2
      cases hob : b.release_date with
      | none => rfl
      | some k => rw [hob] at hbn; simp at hbn
  · unfold sort_most_recent
    refine List.Perm.trans ?_
      (List.filter_append_perm (fun m => m.release_date.isSome) v)
    exact List.Perm.append
      (((List.reverse_perm _).trans (List.perm_insertionSort _ _)).trans
        (List.reverse_perm _))
      (List.Perm.refl _)
  · unfold sort_most_recent
    have hties : ∀ a b : MovieRecord, (a.release_date == d) = true →
        (b.release_date == d) = true →
        keyLeB a.release_date b.release_date = true := by
      intro a b ha hb
      rw [beq_iff_eq] at ha hb
      rw [ha, hb]
      cases d with
      | none => rfl
      | some k => simp [keyLeB]
    rw [List.filter_append, List.filter_reverse,
      filter_insertionSort_eq _ _ hties, List.filter_reverse,
      List.reverse_reverse]
    cases d with
    | none =>
      rw [filter_filter_of_disjoint _ _
          (fun a ha => by
            rw [beq_iff_eq] at ha
            rw [ha]
            rfl),
        filter_filter_of_imp _ _
          (fun a ha => by
            rw [beq_iff_eq] at ha
            rw [ha]
            rfl),
        List.nil_append]
    | some k =>
      rw [filter_filter_of_imp _ _
          (fun a ha => by
            rw [beq_iff_eq] at ha
            rw [ha]
            rfl),
        filter_filter_of_disjoint _ _
          (fun a ha => by
            rw [beq_iff_eq] at ha
            rw [ha]
            rfl),
        List.append_nil]

/-- C6: the surprise sample has exactly `min (length of the view) n`
records, drawn from the view without replacement (it is a permutation of
a subsequence of the view, hence free of duplicate rows whenever the view
is). -/
theorem surprise_sample_spec (v : List MovieRecord) (n : Nat)
    (perm : List Nat) (hp : perm.Perm (List.range v.length)) :
    (surprise_sample v n perm).length = min v.length n ∧
      (surprise_sample v n perm).Subperm v ∧
      (v.Nodup → (surprise_sample v n perm).Nodup) := by
  refine ⟨surprise_sample_length v n perm hp, surprise_sample_subperm v n perm hp, ?_⟩
  intro hnd
  rcases surprise_sample_subperm v n perm hp with ⟨l, hlp, hls⟩
  exact hlp.nodup (List.Nodup.sublist hls hnd)

/-- Witness for C6 on a two-record view with sample size 1. -/
theorem surprise_sample_spec_witness :
    (surprise_sample [recA, recB] 1 [1, 0]).length =
        min (List.length [recA, recB]) 1 ∧
      (surprise_sample [recA, recB] 1 [1, 0]).Subperm [recA, recB] ∧
      (List.Nodup [recA, recB] → (surprise_sample [recA, recB] 1 [1, 0]).Nodup) :=
  surprise_sample_spec [recA, recB] 1 [1, 0] (by decide)

/-- C1 counterexample: the query "t.t" is not a substring of any field of
`recTot`, yet `search_movies` returns the record, because
`Series.str.contains` interprets the query as a regular expression (the
dot matches the letter o of the title "tot").  This refutes the
plain-substring reading of the search. -/
theorem search_regex_not_substring_cex :
    ¬ (∀ l, search_movies [recTot] "t.t" = Except.ok l →
        ∀ m ∈ l, (strInB (lowerS "t.t") (lowerS m.title) ||
          strInB (lowerS "t.t") (lowerS m.cast) ||
          strInB (lowerS "t.t") (lowerS m.directors)) = true) := by
  intro h
  exact absurd (h [recTot] rfl recTot (by decide)) (by decide)

/-- C1 (amended): for a non-empty query whose lowercased text compiles as
a regular expression, a record is in the search result iff it is in the
input view and the compiled regex matches (in the sense of Python
`re.search`) somewhere in at least one of its lowercased `title`, `cast`
or `directors` fields.  The match is regex-based, not plain substring
containment, and a query that fails to compile raises instead. -/
theorem search_matches_regex_of_fields (v : List MovieRecord) (q : String)
    (r : RE) (l : List MovieRecord) (hq : q.isEmpty = false)
    (hc : reCompile (lowerS q).data = Except.ok r)
    (hl : search_movies v q = Except.ok l) (m : MovieRecord) :
    m ∈ l ↔ m ∈ v ∧ (reSearchB r (lowerS m.title).data ||
      reSearchB r (lowerS m.cast).data ||
      reSearchB r (lowerS m.directors).data) = true := by
  rw [search_movies, if_neg (by simp [hq]), hc] at hl
  rw [← Except.ok.inj hl]
  exact List.mem_filter

/-- Witness for the amended C1: the record with title "tot" is found by
the query "t.t" because the compiled regex matches its title. -/
theorem search_matches_regex_of_fields_witness :
    recTot ∈ [recTot] ↔ recTot ∈ [recTot] ∧
      (reSearchB reTT (lowerS recTot.title).data ||
        reSearchB reTT (lowerS recTot.cast).data ||
        reSearchB reTT (lowerS recTot.directors).data) = true :=
  search_matches_regex_of_fields [recTot] "t.t" reTT [recTot] rfl rfl rfl recTot

/-- C4 counterexample: the query "(" is not a valid regular expression, so
`Series.str.contains` raises `re.error` inside the search step and the
whole pipeline fails — the operations of sections 4.2-4.6 are not total in
the query parameter. -/
theorem pipeline_raises_on_invalid_regex_cex :
    run_pipeline [recTot] [] "All" "(" false false false [] =
      Except.error "missing ), unterminated subpattern" := rfl

/-- C4 (amended): the genre filter, age-rating filter, sorts, sample and
truncation are total, and the pipeline returns a result for every query
that is empty or whose lowercased text compiles as a regular expression;
only a query that fails to compile (such as "(") makes the search — and
hence the pipeline — raise. -/
theorem pipeline_total_on_compilable_queries (df : List MovieRecord)
    (gs : List String) (ar q : String) (tr mr sm : Bool) (perm : List Nat)
    (h : q = "" ∨ ∃ r, reCompile (lowerS q).data = Except.ok r) :
    ∃ l, run_pipeline df gs ar q tr mr sm perm = Except.ok l := by
  have hsearch : ∀ w : List MovieRecord, ∃ l3, search_movies w q = Except.ok l3 := by
    intro w
    by_cases hq : q.isEmpty
    · exact ⟨w, by simp [search_movies, hq]⟩
    · rcases h with h | ⟨r, hr⟩
      · exact absurd h (by simpa [String.isEmpty_iff] using hq)
      · refine ⟨w.filter (fun m =>
            reSearchB r (lowerS m.title).data ||
            reSearchB r (lowerS m.cast).data ||
            reSearchB r (lowerS m.directors).data), ?_⟩
        rw [search_movies, if_neg (by simp [hq]), hr]
  obtain ⟨l3, h3⟩ := hsearch (filter_by_age_rating (filter_by_genres df gs) ar)
  unfold run_pipeline pipeline_filtered
  rw [h3]
  cases sm
  · exact ⟨_, rfl⟩
  · exact ⟨_, rfl⟩

/-- Witness for the amended C4 at a compilable concrete query. -/
theorem pipeline_total_on_compilable_queries_witness :
    ∃ l, run_pipeline [recTot] [] "All" "t.t" false false false [] = Except.ok l :=
  pipeline_total_on_compilable_queries [recTot] [] "All" "t.t" false false false []
    (Or.inr ⟨reTT, rfl⟩)

/-- C7: whenever the filter stage succeeds, the pipeline without the
surprise toggle returns exactly the first 10 records of the sorted view
(hence at most 10 records), and with the surprise toggle it returns
exactly the surprise sample, whose size `min (length of the sorted view) 5`
is the final result size — no further truncation. -/
theorem pipeline_truncation_spec (df : List MovieRecord) (gs : List String)
    (ar q : String) (tr mr : Bool) (perm : List Nat) (f3 : List MovieRecord)
    (hf : pipeline_filtered df gs ar q = Except.ok f3)
    (hp : perm.Perm (List.range (pipeline_sorted f3 tr mr).length)) :
    run_pipeline df gs ar q tr mr false perm =
        Except.ok ((pipeline_sorted f3 tr mr).take 10) ∧
      ((pipeline_sorted f3 tr mr).take 10).length ≤ 10 ∧
      run_pipeline df gs ar q tr mr true perm =
        Except.ok (surprise_sample (pipeline_sorted f3 tr mr) 5 perm) ∧
      (surprise_sample (pipeline_sorted f3 tr mr) 5 perm).length =
        min (pipeline_sorted f3 tr mr).length 5 := by
  refine ⟨?_, ?_, ?_, surprise_sample_length _ 5 perm hp⟩
  · unfold run_pipeline
    rw [hf]
    rfl
  · exact List.length_take_le 10 _
  · unfold run_pipeline
    rw [hf]
    rfl

/-- Witness for C7 on a concrete two-record view with no toggles set. -/
theorem pipeline_truncation_spec_witness :
    run_pipeline [recA, recB] [] "All" "" false false false [1, 0] =
        Except.ok ((pipeline_sorted [recA, recB] false false).take 10) ∧
      ((pipeline_sorted [recA, recB] false false).take 10).length ≤ 10 ∧
      run_pipeline [recA, recB] [] "All" "" false false true [1, 0] =
        Except.ok (surprise_sample (pipeline_sorted [recA, recB] false false) 5 [1, 0]) ∧
      (surprise_sample (pipeline_sorted [recA, recB] false false) 5 [1, 0]).length =
        min (pipeline_sorted [recA, recB] false false).length 5 :=
  pipeline_truncation_spec [recA, recB] [] "All" "" false false [1, 0]
    [recA, recB] rfl (by decide)
